import Mathlib

/-!
Verification of the proto-file rewrite engine and compile-option model of the
`codestare-msg-compiler` repository (`src/codestare/compiletools/compile.py`,
`src/codestare/compiletools/options.py`, with the near-identical earlier
revision under `src/ubii/compiletools/`).

The Python code is shallowly embedded: file contents are lists of characters,
the two regular expressions the code uses (`_PACKAGE`, `_IMPORT`) are modelled
by executable line-based parsers (both patterns are `^...$`-anchored with
`re.MULTILINE` and cannot match a newline, so a match is exactly a full line),
and the unanchored substitution regex built by `Rewriter.fix_packages.make_regex`
is modelled by an executable matcher/substituter.  Filesystem writes are
modelled as a list of effects.
-/

namespace MsgCompiler

abbrev Chars := List Char

/-- Python `\w` (ASCII range): letters, digits and underscore. -/
def isWordChar (c : Char) : Bool := c.isAlphanum || c = '_'

/-- Strip the literal pattern `pat` from the front of `s` (a run of literal
regex characters); `none` when `s` does not start with `pat`. -/
def dropLit : Chars → Chars → Option Chars
  | [], s => some s
  | _ :: _, [] => none
  | a :: as, b :: bs => if a = b then dropLit as bs else none

/-- Generic boolean prefix test on lists. -/
def isPrefixB {α : Type} [DecidableEq α] : List α → List α → Bool
  | [], _ => true
  | _ :: _, [] => false
  | a :: as, b :: bs => if a = b then isPrefixB as bs else false

/-- Python's substring test `needle in hay` on strings. -/
def isSubstr (needle : Chars) : Chars → Bool
  | [] => needle.isEmpty
  | c :: cs => isPrefixB needle (c :: cs) || isSubstr needle cs

/-- Python `str.split(sep)` for a one-character separator
(`''.split(sep) == ['']`). -/
def splitOnChar (sep : Char) : Chars → List Chars
  | [] => [[]]
  | c :: rest =>
    if c = sep then [] :: splitOnChar sep rest
    else
      match splitOnChar sep rest with
      | [] => [[c]]
      | h :: t => (c :: h) :: t

/-- Python `sep.join(pieces)` for a one-character separator. -/
def joinWith (sep : Char) : List Chars → Chars
  | [] => []
  | [x] => x
  | x :: y :: ys => x ++ sep :: joinWith sep (y :: ys)

def splitOnDot : Chars → List Chars := splitOnChar '.'
def joinDots : List Chars → Chars := joinWith '.'
def splitLines : Chars → List Chars := splitOnChar '\n'
def joinLines : List Chars → Chars := joinWith '\n'
def joinSlash : List Chars → Chars := joinWith '/'

/-- Greedy match of the regex fragment `((?:\.\w+)*)` at the front of the
input: returns the matched text and the remaining input.  Structural
recursion on a fuel counter (each step strictly shortens the input, so fuel
equal to the input length never runs out). -/
def parseDotWordsF : Nat → Chars → Chars × Chars
  | 0, s => ([], s)
  | _ + 1, [] => ([], [])
  | fuel + 1, c :: rest =>
    let w := rest.takeWhile isWordChar
    if c = '.' ∧ w ≠ [] then
      let p := parseDotWordsF fuel (rest.dropWhile isWordChar)
      ('.' :: (w ++ p.1), p.2)
    else ([], c :: rest)

def parseDotWords (s : Chars) : Chars × Chars := parseDotWordsF s.length s

/-- `re.match` of `package_regex = r'(\w+)((?:\.\w+)*)'` against `s`:
the two groups of the leftmost (prefix) match, or `none`.  As in Python,
only a prefix of `s` needs to match. -/
def reMatchPackage (s : Chars) : Option (Chars × Chars) :=
  let g1 := s.takeWhile isWordChar
  if g1 = [] then none
  else some (g1, (parseDotWords (s.dropWhile isWordChar)).1)

/-- `s` matches the dotted-identifier grammar `word(.word)*` in full
(what `re.fullmatch(package_regex, s)` would test). -/
def isDottedIdent (s : Chars) : Bool :=
  let g1 := s.takeWhile isWordChar
  !g1.isEmpty && (parseDotWords (s.dropWhile isWordChar)).2.isEmpty

/-- `Rewriter._fix_package` applied to a match with groups `g1`, `g2`
(first package component, and the dotted remainder including its leading dot),
under root package `P`:

    sub_pkgs = g2[1:].split('.')
    pkg_iterator = dropwhile(lambda p: p in P, chain([g1], sub_pkgs))
    return '.'.join(chain([P], pkg_iterator))

Note the Python `in` here is the substring test on strings. -/
def fixPackage (P g1 g2 : Chars) : Chars :=
  let subs := splitOnDot (g2.drop 1)
  let kept := (g1 :: subs).dropWhile fun c => isSubstr c P
  joinDots (P :: kept)

/-- The package remap on a declared-package string: parse `Q` with
`package_regex` (prefix match) and run `_fix_package` on the match. -/
def remapS (P Q : Chars) : Option Chars :=
  (reMatchPackage Q).map fun g => fixPackage P g.1 g.2

def cs (s : String) : Chars := s.data

/-! ## The rewriter session state

`Rewriter` holds `_root_package`, `_out_root` and the working set
(`_contents : Dict[Path, str]` together with `_roots : Dict[Path, Path]`).
A `pathlib.Path` is modelled as its list of segments; the two dictionaries
are fused into one insertion-ordered association list of entries
(path, discovery root, current text), which is faithful because the code
always keys both dictionaries by the same discovered paths. -/

abbrev Seg := Chars
abbrev PathT := List Seg

structure FileEntry where
  path : PathT
  root : PathT
  content : Chars
deriving DecidableEq

structure RW where
  rootPackage : Chars
  outputRoot : PathT
  files : List FileEntry
deriving DecidableEq

/-- `check_packages = functools.partial(re.match, package_regex)`:
truthy iff `re.match` finds a (prefix) match. -/
def checkPackages (v : Chars) : Bool := (reMatchPackage v).isSome

inductive RewriterErr where
  | invalidPackageName
deriving DecidableEq

/-- The `root_package` setter: `assert check_packages(value)` then store.
(The `value is None` early-return is the absent case and is not modelled:
the claims concern supplied names.) -/
def setRootPackage (v : Chars) : Except RewriterErr Chars :=
  if checkPackages v then Except.ok v else Except.error RewriterErr.invalidPackageName

/-- Parse one line against `_PACKAGE = ^package (\w+)((?:\.\w+)*);$`
(with `re.MULTILINE` a match is exactly a full line; the pattern cannot
match a newline). -/
def parsePackageLine (l : Chars) : Option (Chars × Chars) :=
  match dropLit (cs "package ") l with
  | none => none
  | some rest =>
    let g1 := rest.takeWhile isWordChar
    if g1 = [] then none
    else
      let p := parseDotWords (rest.dropWhile isWordChar)
      if p.2 = cs ";" then some (g1, p.1) else none

/-- All `_PACKAGE` matches of a file text, in order (`finditer`). -/
def packageMatches (content : Chars) : List (Chars × Chars) :=
  (splitLines content).filterMap parsePackageLine

/-- Greedy match of the regex fragment `((?:\w+/)*)` at the front of the
input: the list of directory segments and the remaining input (fuel-driven
like `parseDotWordsF`). -/
def parseSegsF : Nat → Chars → List Chars × Chars
  | 0, s => ([], s)
  | _ + 1, [] => ([], [])
  | fuel + 1, c :: rest =>
    let w := (c :: rest).takeWhile isWordChar
    let d := (c :: rest).dropWhile isWordChar
    if w ≠ [] ∧ d.head? = some '/' then
      let p := parseSegsF fuel d.tail
      (w :: p.1, p.2)
    else ([], c :: rest)

def parseSegs (s : Chars) : List Chars × Chars := parseSegsF s.length s

/-- Parse one line against `_IMPORT = ^import "((?:\w+/)*)(\w+\.proto)";$`:
returns the directory segments of group 1 and the file name of group 2. -/
def parseImportLine (l : Chars) : Option (List Chars × Chars) :=
  match dropLit (cs "import \"") l with
  | none => none
  | some rest =>
    let p := parseSegs rest
    let fn := p.2.takeWhile isWordChar
    if fn = [] then none
    else
      match dropLit (cs ".proto") (p.2.dropWhile isWordChar) with
      | none => none
      | some r2 => if r2 = cs "\";" then some (p.1, fn ++ cs ".proto") else none

/-- All `_IMPORT` matches of a file text, in order (`finditer`). -/
def importMatches (content : Chars) : List (List Chars × Chars) :=
  (splitLines content).filterMap parseImportLine

/-- `path.relative_to(self._roots[path]).parts` (defined when the file's
discovery root is a path prefix of the file's path, which `read` guarantees). -/
def relParts (e : FileEntry) : PathT := e.path.drop e.root.length

/-- `Rewriter._get_package`: first `_PACKAGE` match run through `_fix_package`,
else the dot-join of the root-relative path parts (file name included). -/
def getPackage (P : Chars) (e : FileEntry) : Chars :=
  match (packageMatches e.content).head? with
  | some g => fixPackage P g.1 g.2
  | none => joinDots (relParts e)

/-- Dictionary lookup in the working set (`self._contents` keys). -/
def findEntry (rw : RW) (p : PathT) : Option FileEntry :=
  rw.files.find? fun e => decide (e.path = p)

/-- `Rewriter._fix_import` on one `_IMPORT` match `m` (directory segments,
file name) of a file discovered under `root`:
`self.calculated_packages.get(root / path / file)`; on a hit whose package is
truthy (non-empty), the slash-join of the package components plus file name. -/
def fixImport (rw : RW) (root : PathT) (m : List Chars × Chars) : Option Chars :=
  match findEntry rw (root ++ m.1 ++ [m.2]) with
  | none => none
  | some e =>
    let pkg := getPackage rw.rootPackage e
    if pkg = [] then none else some (joinSlash (splitOnDot pkg ++ [m.2]))

/-- The unresolved-import detection of `fix_imports`.  The source builds
`process_imports` with a flat double comprehension whose inner
single-statement dict is rebuilt for every statement, so only the LAST
statement of each file survives; `failed` is therefore the set of files
whose last import statement does not resolve. -/
def lastImportFailed (rw : RW) (e : FileEntry) : Bool :=
  match (importMatches e.content).getLast? with
  | some m => (fixImport rw e.root m).isNone
  | none => false

/-- `Rewriter._fix_import_declaration` as the `_IMPORT.sub` callback on one
line: an unresolved import interpolates Python `None` as the text `None`. -/
def subImportsLine (rw : RW) (root : PathT) (l : Chars) : Chars :=
  match parseImportLine l with
  | some m =>
    cs "import \"" ++
      (match fixImport rw root m with
       | some s => s
       | none => cs "None") ++ cs "\";"
  | none => l

/-- `Rewriter.fix_imports`: when some file's last import is unresolved, warn
and return the state unchanged; otherwise substitute every `_IMPORT` line of
every file (all lookups against the pre-call working set, as the Python dict
comprehension rebuilds `self._contents` only after evaluating fully). -/
def fixImports (rw : RW) : RW :=
  if rw.files.any (lastImportFailed rw) then rw
  else
    { rw with
      files := rw.files.map fun e =>
        { e with content := joinLines ((splitLines e.content).map (subImportsLine rw e.root)) } }

/-- All `_PACKAGE` matches across the working set, in iteration order
(`unique_package_regexes` in the source is a `set` of compiled-regex objects,
which hash by identity, so equal patterns are in fact not deduplicated; with a
single distinct declaration — the case of every concrete input below — the
model is exact). -/
def packageDecls (rw : RW) : List (Chars × Chars) :=
  rw.files.flatMap fun e => packageMatches e.content

/-- Matcher for `self._root_package` spliced RAW into
`make_regex`'s pattern `(?:{root_package}\.)?(...)(...)`:
every `.` of the root package is an unescaped regex `.` and matches any
character; word characters match literally. -/
def matchRawP : Chars → Chars → Option Chars
  | [], s => some s
  | _ :: _, [] => none
  | p :: ps, c :: cs' => if p = '.' || p = c then matchRawP ps cs' else none

/-- Try `make_regex`'s pattern `(?:P\.)?(root)(subs)` at the current position:
first with the optional prefix (greedy `?`), falling back to the bare
`(root)(subs)` alternative; returns the input remaining after the match. -/
def matchPkgAt (P root subs : Chars) (s : Chars) : Option Chars :=
  match
    (match matchRawP P s with
     | some r1 =>
       match r1 with
       | '.' :: r2 =>
         (match dropLit root r2 with
          | some r3 => dropLit subs r3
          | none => none)
       | _ => none
     | none => none)
  with
  | some r => some r
  | none =>
    match dropLit root s with
    | some r => dropLit subs r
    | none => none

/-- `re.sub` scanning for `matchPkgAt` with a constant replacement (the
`_fix_package` callback only reads the groups, which are the literally matched
`root`/`subs`): leftmost matches, continuing after each replacement, the
replacement text never rescanned.  Fuel-driven; `reSub` supplies the input
length as fuel, which suffices since every match consumes at least the
non-empty `root`. -/
def reSubGo (P root subs repl : Chars) : Nat → Chars → Chars
  | 0, s => s
  | _ + 1, [] => []
  | fuel + 1, c :: cs' =>
    match matchPkgAt P root subs (c :: cs') with
    | some rest => repl ++ reSubGo P root subs repl fuel rest
    | none => c :: reSubGo P root subs repl fuel cs'

def reSub (P root subs repl s : Chars) : Chars :=
  reSubGo P root subs repl s.length s

/-- `Rewriter.fix_packages`: gather every `_PACKAGE` declaration of the
current working set, then for each one substitute `make_regex`'s pattern by
`_fix_package`'s (constant) replacement across every file's text. -/
def fixPackages (rw : RW) : RW :=
  (packageDecls rw).foldl
    (fun st d =>
      { st with
        files := st.files.map fun e =>
          { e with
            content := reSub st.rootPackage d.1 d.2
              (fixPackage st.rootPackage d.1 d.2) e.content } })
    rw

/-! ## Filesystem effects of `write` -/

inductive FsEff where
  /-- `out_dir.mkdir(parents=True, exist_ok=True)` -/
  | mkdirP : PathT → FsEff
  /-- `open(out_dir / file.name, 'w')` — creates or truncates the file -/
  | openW : PathT → FsEff
  /-- `output.write(content)` -/
  | writeF : PathT → Chars → FsEff
deriving DecidableEq

/-- `self.output_root / '/'.join(package.split('.'))`: `pathlib` drops empty
path segments produced by empty package components. -/
def outDirOf (rw : RW) (e : FileEntry) : PathT :=
  rw.outputRoot ++ (splitOnDot (getPackage rw.rootPackage e)).filter fun seg => seg ≠ []

/-- `file.name`: the last path segment. -/
def fileName (e : FileEntry) : Seg := e.path.getLastD []

/-- `Rewriter.write` of the `codestare` revision as its list of filesystem
effects, in program order: the directory is created and the output file opened
with mode `'w'` BEFORE the `dry_run` test, which only skips the
`output.write(content)` call. -/
def writeEffects (rw : RW) (dryRun : Bool) : List FsEff :=
  rw.files.flatMap fun e =>
    let d := outDirOf rw e
    [FsEff.mkdirP d, FsEff.openW (d ++ [fileName e])] ++
      if dryRun then [] else [FsEff.writeF (d ++ [fileName e]) e.content]

/-- `Rewriter.write` of the `ubii` revision: `if dry_run: return` precedes the
loop, so a dry run performs no filesystem effect at all. -/
def writeEffectsUbii (rw : RW) (dryRun : Bool) : List FsEff :=
  if dryRun then []
  else
    rw.files.flatMap fun e =>
      let d := outDirOf rw e
      [FsEff.mkdirP d, FsEff.openW (d ++ [fileName e]),
       FsEff.writeF (d ++ [fileName e]) e.content]

/-! ## The option model (`options.py`, class `CompileOption(Flag)`)

Flag values are bit sets over `Nat`.  `for o in cls` iterates the twelve
distinct-valued members in definition order (the repository targets the
pre-3.11 `enum.Flag`, whose class iteration includes the named unions). -/

def JAVA : Nat := 1
def JSLIBRARY : Nat := 2
def JSINDIVIDUAL : Nat := 4
def CSHARP : Nat := 8
def CPP : Nat := 16
def PYTHON_BETTER_PROTO : Nat := 32
def PYTHON_MYPY : Nat := 64
def PYTHON_PROTOPLUS : Nat := 128
def PYTHON_BASIC : Nat := 256
def JAVASCRIPT : Nat := JSINDIVIDUAL ||| JSLIBRARY
def PYTHON : Nat := PYTHON_MYPY ||| PYTHON_BETTER_PROTO ||| PYTHON_PROTOPLUS ||| PYTHON_BASIC
def ALL : Nat := JAVA ||| JAVASCRIPT ||| CSHARP ||| CPP ||| PYTHON

def members : List Nat :=
  [JAVA, JSLIBRARY, JSINDIVIDUAL, CSHARP, CPP, PYTHON_BETTER_PROTO,
   PYTHON_MYPY, PYTHON_PROTOPLUS, PYTHON_BASIC, JAVASCRIPT, PYTHON, ALL]

/-- `CompileOption.arguments`: the token list recognized for a flag value,
built in source order, with the `ALL` and `JAVASCRIPT` overrides applied
afterwards exactly as in the code. -/
def arguments (o : Nat) : List String :=
  let base :=
    (if o &&& JAVA ≠ 0 then ["java"] else []) ++
    (if o &&& CSHARP ≠ 0 then ["cs"] else []) ++
    (if o &&& CPP ≠ 0 then ["cpp"] else []) ++
    (if o &&& PYTHON_MYPY ≠ 0 then ["mypy"] else []) ++
    (if o &&& PYTHON_BETTER_PROTO ≠ 0 then ["better"] else []) ++
    (if o &&& PYTHON_PROTOPLUS ≠ 0 then ["plus"] else []) ++
    (if o &&& PYTHON_BASIC ≠ 0 then ["py"] else [])
  if o = ALL then ["all"] else if o = JAVASCRIPT then ["js"] else base

/-- `CompileOption.protoc_plugin_name`: `None` (no plugin) for combined
options. -/
def protoc_plugin_name (o : Nat) : Option String :=
  if o = JAVA then some "java"
  else if o = JSLIBRARY then some "js"
  else if o = JSINDIVIDUAL then some "js"
  else if o = CSHARP then some "csharp"
  else if o = CPP then some "cpp"
  else if o = PYTHON_BETTER_PROTO then some "python_betterproto"
  else if o = PYTHON_MYPY then some "mypy"
  else if o = PYTHON_BASIC then some "python"
  else if o = PYTHON_PROTOPLUS then some "proto-plus"
  else none

/-- `CompileOption.is_composite`: `o.value & (o.value - 1)` is truthy. -/
def is_composite (o : Nat) : Bool := o &&& (o - 1) ≠ 0

/-- `CompileOption.disjunct`: the atomic members whose bit is present. -/
def disjunct (o : Nat) : List Nat :=
  members.filter fun m => (m &&& o ≠ 0) && !is_composite m

/-- Python exception kinds raised by `from_str` / `from_string_list`. -/
inductive PyErr where
  /-- `TypeError: reduce() of empty iterable with no initial value` -/
  | typeErrorEmptyReduce
  /-- `ValueError(f"… is no valid option.")` — the intended `InvalidOption` -/
  | valueErrorInvalidOption
deriving DecidableEq

deriving instance DecidableEq for Except

/-- `CompileOption.from_str`:

    matching = reduce(operator.and_, [o for o in cls if value in o.arguments])
    if not matching: raise ValueError(...)

`reduce` over an empty list raises `TypeError` before the `ValueError` check
is reached. -/
def from_str (tok : String) : Except PyErr Nat :=
  match members.filter (fun o => (arguments o).contains tok) with
  | [] => Except.error PyErr.typeErrorEmptyReduce
  | o :: os =>
    let m := os.foldl (fun a b => a &&& b) o
    if m = 0 then Except.error PyErr.valueErrorInvalidOption else Except.ok m

/-- `CompileOption.from_string_list`:
`reduce(operator.and_, [cls.from_str(v) for v in values])` — an
AND-reduction; the comprehension is evaluated in full first, so the first
failing token's exception propagates. -/
def from_string_list (toks : List String) : Except PyErr Nat := do
  let l ← toks.mapM from_str
  match l with
  | [] => Except.error PyErr.typeErrorEmptyReduce
  | o :: os => Except.ok (os.foldl (fun a b => a &&& b) o)

/-! ## General lemmas -/

theorem isPrefixB_append {α : Type} [DecidableEq α] :
    ∀ a b : List α, isPrefixB a (a ++ b) = true
  | [], _ => rfl
  | x :: xs, b => by
    simp only [List.cons_append, isPrefixB, if_pos rfl]
    exact isPrefixB_append xs b

theorem isPrefixB_self {α : Type} [DecidableEq α] (a : List α) : isPrefixB a a = true := by
  have h := isPrefixB_append a []
  rwa [List.append_nil] at h

theorem splitOnChar_ne_nil (sep : Char) : ∀ s : Chars, splitOnChar sep s ≠ []
  | [] => by simp [splitOnChar]
  | c :: rest => by
    by_cases h : c = sep
    · simp [splitOnChar, h]
    · simp only [splitOnChar, if_neg h]
      cases hs : splitOnChar sep rest <;> simp

/-- Splitting on a separator distributes over gluing with that separator. -/
theorem splitOnChar_append (sep : Char) (a b : Chars) :
    splitOnChar sep (a ++ sep :: b) = splitOnChar sep a ++ splitOnChar sep b := by
  induction a with
  | nil => simp [splitOnChar]
  | cons c a ih =>
    by_cases h : c = sep
    · subst h
      simp [splitOnChar, ih]
    · simp only [List.cons_append, splitOnChar, if_neg h]
      cases hs : splitOnChar sep a with
      | nil => exact absurd hs (splitOnChar_ne_nil sep a)
      | cons hh tt => rw [List.append_eq, ih, hs]; simp

/-! ## Concrete working sets

The spec's own scenario (§8): root package `my.proto`, output root `out`,
one search root `in`, file `in/a/x.proto` with no package declaration and
no import statements, file `in/a/y.proto` declaring `package a;` and
referencing `"a/x.proto"`. -/

def xEntry : FileEntry :=
  ⟨[cs "in", cs "a", cs "x.proto"], [cs "in"], cs "message X\n"⟩

def yEntry : FileEntry :=
  ⟨[cs "in", cs "a", cs "y.proto"], [cs "in"], cs "package a;\nimport \"a/x.proto\";\n"⟩

def rwScenario : RW := ⟨cs "my.proto", [cs "out"], [xEntry, yEntry]⟩

/-- A working set where `in/f.proto` has two imports — the first one
(`missing.proto`) unresolvable, the second one (`g.proto`) resolvable. -/
def fEntry : FileEntry :=
  ⟨[cs "in", cs "f.proto"], [cs "in"], cs "import \"missing.proto\";\nimport \"g.proto\";\n"⟩

def gEntry : FileEntry :=
  ⟨[cs "in", cs "g.proto"], [cs "in"], cs "message G\n"⟩

def rwImports : RW := ⟨cs "my.proto", [cs "out"], [fEntry, gEntry]⟩

/-! ## Claims -/

/-- C1, counterexample: for `in/a/x.proto` (no package declaration) under
root `in/` with root package `my.proto`, `_get_package` returns `a.x.proto` —
the dot-join of ALL root-relative path parts, file name included and root
package not prepended — not `my.proto.a` as the claim states. -/
theorem c1_counterexample :
    getPackage (cs "my.proto") xEntry = cs "a.x.proto" ∧
    getPackage (cs "my.proto") xEntry ≠ cs "my.proto.a" := by decide

/-- C1, amended: for every file whose text contains no `_PACKAGE` match,
`_get_package` returns the dot-join of the file's path parts relative to its
discovery root — each directory segment AND the file name become components —
and the root package is not prepended at all. -/
theorem c1_no_declaration_path_derived (P : Chars) (e : FileEntry)
    (h : packageMatches e.content = []) :
    getPackage P e = joinDots (relParts e) := by
  simp [getPackage, h]

/-- C1, witness: the amended statement applied to `in/a/x.proto`. -/
theorem c1_witness :
    packageMatches xEntry.content = [] ∧
    getPackage (cs "my.proto") xEntry = joinDots (relParts xEntry) :=
  ⟨by decide, c1_no_declaration_path_derived (cs "my.proto") xEntry (by decide)⟩

/-- C2: `fix_imports`'s failure detection keeps only the LAST import
statement of each file (the dict comprehension rebuilds a singleton inner
dict per statement), so with `f.proto`'s first import unresolved and its
second resolved, no warning fires and the working set IS mutated: the
unresolved import is rewritten to the literal text `import "None";`
(Python `None` interpolated), contradicting the all-or-nothing claim. -/
theorem c2_unresolved_import_still_mutates :
    fixImport rwImports [cs "in"] ([], cs "missing.proto") = none ∧
    (importMatches fEntry.content).head? = some ([], cs "missing.proto") ∧
    (fixImports rwImports).files.map FileEntry.content =
      [cs "import \"None\";\nimport \"g/proto/g.proto\";\n", cs "message G\n"] ∧
    fixImports rwImports ≠ rwImports := by decide

/-- C3: the package remap is NOT idempotent.  With `P = my.proto` and the
single-component declared package `Q = a`, `''.split('.') == ['']` makes
`_fix_package` append a trailing empty component: `remap(P, a) =
my.proto.a.` (trailing dot), while re-applying the remap to that result
yields `my.proto.a` — applying the function twice differs from applying it
once, contradicting the code's own comment ("applying fix_package multiple
times is ok since it doesn't change the package"). -/
theorem c3_remap_not_idempotent :
    remapS (cs "my.proto") (cs "a") = some (cs "my.proto.a.") ∧
    remapS (cs "my.proto") (cs "my.proto.a.") = some (cs "my.proto.a") ∧
    (cs "my.proto.a" : Chars) ≠ cs "my.proto.a." := by decide

/-- C4: `from_string_list` combines tokens with `operator.and_`, not OR:
`["py","mypy"]` collapses to the empty flag (no atomic components, hence no
plugin invocations), whereas an OR-union of the two flags would have exactly
the atomic components with plugin names `mypy` and `python`.  The `["all"]`
half of the claim does hold: its atomic decomposition is all nine flavors. -/
theorem c4_and_reduction_empties_flags :
    from_string_list ["py", "mypy"] = Except.ok 0 ∧
    disjunct 0 = [] ∧
    (disjunct (PYTHON_BASIC ||| PYTHON_MYPY)).map protoc_plugin_name =
      [some "mypy", some "python"] ∧
    from_string_list ["all"] = Except.ok ALL ∧
    disjunct ALL =
      [JAVA, JSLIBRARY, JSINDIVIDUAL, CSHARP, CPP, PYTHON_BETTER_PROTO,
       PYTHON_MYPY, PYTHON_PROTOPLUS, PYTHON_BASIC] := by decide

/-- C5: in the `codestare` revision, `write(dry_run=True)` still runs
`out_dir.mkdir(parents=True, exist_ok=True)` and `open(out_dir / file.name,
'w')` (which creates or truncates the output file) before the `dry_run` test
— a dry run touches the filesystem for every file of a non-empty working
set.  The earlier `ubii` revision returns before the loop and really is a
no-op. -/
theorem c5_dry_run_touches_filesystem :
    writeEffects ⟨cs "my.proto", [cs "out"], [xEntry]⟩ true =
      [FsEff.mkdirP [cs "out", cs "a", cs "x", cs "proto"],
       FsEff.openW [cs "out", cs "a", cs "x", cs "proto", cs "x.proto"]] ∧
    writeEffects ⟨cs "my.proto", [cs "out"], [xEntry]⟩ true ≠ [] ∧
    writeEffectsUbii ⟨cs "my.proto", [cs "out"], [xEntry]⟩ true = [] := by decide

/-- C6: the import-consistency property fails on the spec's own §8 scenario.
`y.proto` imports `x.proto`; after `fix_imports`, `fix_packages`,
`write(dry_run=False)`, `x.proto` is written at `out/a/x/proto/x.proto`
(path relative to the output root: `a/x/proto/x.proto`), but
`fix_packages`'s unanchored substitution has rewritten every occurrence of
the declared package text `a` — including letters inside the word `package`
and the `a` segment of the already-fixed import path — so `y.proto`'s
written text carries the import path `my.proto.a./x/proto/x.proto` and no
longer contains the line `import "a/x/proto/x.proto";` matching `x.proto`'s
actual location. -/
theorem c6_import_inconsistent :
    importMatches yEntry.content = [([cs "a"], cs "x.proto")] ∧
    findEntry rwScenario [cs "in", cs "a", cs "x.proto"] = some xEntry ∧
    (fixPackages (fixImports rwScenario)).files.map FileEntry.content =
      [cs "messmy.proto.a.ge X\n",
       cs "pmy.proto.a.ckmy.proto.a.ge my.proto.a.;\nimport \"my.proto.a./x/proto/x.proto\";\n"] ∧
    (writeEffects (fixPackages (fixImports rwScenario)) false).contains
      (FsEff.writeF [cs "out", cs "a", cs "x", cs "proto", cs "x.proto"]
        (cs "messmy.proto.a.ge X\n")) = true ∧
    (splitLines
        (cs "pmy.proto.a.ckmy.proto.a.ge my.proto.a.;\nimport \"my.proto.a./x/proto/x.proto\";\n")).contains
      (cs "import \"a/x/proto/x.proto\";") = false := by decide

/-- C7, counterexample: `remap(my.proto, a) = my.proto.a.` carries a
trailing empty component and therefore is NOT itself a dotted identifier
(`word(.word)*`), refuting the claim's "is a dotted identifier" part. -/
theorem c7_counterexample :
    isDottedIdent (cs "a") = true ∧
    isDottedIdent (cs "my.proto") = true ∧
    (cs "my.proto" : Chars) ≠ [] ∧
    remapS (cs "my.proto") (cs "a") = some (cs "my.proto.a.") ∧
    isDottedIdent (cs "my.proto.a.") = false := by decide

/-- C7, amended: for every root package `P` and declared package `Q`, the
remap result starts with `P` as a string and `P`'s dot-components are a
prefix of the result's dot-components (the result may still carry a
trailing empty component, so it need not be a valid dotted identifier). -/
theorem c7_remap_root_prefix (P Q R : Chars) (_hP : isDottedIdent P = true)
    (_hne : P ≠ []) (hR : remapS P Q = some R) :
    isPrefixB P R = true ∧ isPrefixB (splitOnDot P) (splitOnDot R) = true := by
  rcases hQ : reMatchPackage Q with _ | ⟨g1, g2⟩
  · rw [remapS, hQ] at hR
    simp at hR
  · rw [remapS, hQ] at hR
    simp only [Option.map_some'] at hR
    have hR' : fixPackage P g1 g2 = R := Option.some.inj hR
    subst hR'
    cases hk : (g1 :: splitOnDot g2.tail).dropWhile (fun c => isSubstr c P) with
    | nil =>
      have hfix : fixPackage P g1 g2 = P := by
        simp [fixPackage, List.drop_one, hk, joinDots, joinWith]
      rw [hfix]
      exact ⟨isPrefixB_self P, isPrefixB_self (splitOnDot P)⟩
    | cons k ks =>
      have hfix : fixPackage P g1 g2 = P ++ '.' :: joinDots (k :: ks) := by
        simp [fixPackage, List.drop_one, hk, joinDots, joinWith]
      rw [hfix]
      constructor
      · exact isPrefixB_append P ('.' :: joinDots (k :: ks))
      · show isPrefixB (splitOnDot P) (splitOnChar '.' (P ++ '.' :: joinDots (k :: ks))) = true
        rw [splitOnChar_append]
        exact isPrefixB_append (splitOnDot P) (splitOnChar '.' (joinDots (k :: ks)))

/-- C7, witness: the root-prefix property at `P = my.proto`,
`Q = foo.bar`. -/
theorem c7_witness :
    isDottedIdent (cs "my.proto") = true ∧ (cs "my.proto" : Chars) ≠ [] ∧
    remapS (cs "my.proto") (cs "foo.bar") = some (cs "my.proto.foo.bar") ∧
    (isPrefixB (cs "my.proto") (cs "my.proto.foo.bar") = true ∧
     isPrefixB (splitOnDot (cs "my.proto")) (splitOnDot (cs "my.proto.foo.bar")) = true) :=
  ⟨by decide, by decide, by decide,
   c7_remap_root_prefix (cs "my.proto") (cs "foo.bar") (cs "my.proto.foo.bar")
     (by decide) (by decide) (by decide)⟩

/-- C8, counterexample: the setter validates with `re.match`, which anchors
only at the start, so `a.b-x` — non-empty and NOT matching the
`word(.word)*` grammar in full — is accepted, where the claim says it is
rejected. -/
theorem c8_counterexample :
    isDottedIdent (cs "a.b-x") = false ∧
    (cs "a.b-x" : Chars) ≠ [] ∧
    setRootPackage (cs "a.b-x") = Except.ok (cs "a.b-x") := by decide

/-- C8, amended: setting the root package succeeds if and only if the name's
first character exists and is a word character (a prefix match of
`word(.word)*` suffices — trailing garbage is accepted); in particular the
empty name is REJECTED, and the check performs no file I/O (it is a pure
function of the name). -/
theorem c8_accepts_iff_word_start (v : Chars) :
    setRootPackage v = Except.ok v ↔ v.head?.any isWordChar = true := by
  cases v with
  | nil => simp [setRootPackage, checkPackages, reMatchPackage]
  | cons c rest =>
    by_cases hc : isWordChar c
    · simp [setRootPackage, checkPackages, reMatchPackage, List.takeWhile_cons, hc]
    · simp [setRootPackage, checkPackages, reMatchPackage, List.takeWhile_cons, hc]

/-- C9: for a token on no flag's recognized list, `from_str` does fail, but
with `TypeError: reduce() of empty iterable` — `reduce(operator.and_, [])`
raises before the intended `ValueError(f"... is no valid option.")`
(`InvalidOption`) check can run, so the `InvalidOption` branch is dead code;
every recognized token returns its flag. -/
theorem c9_invalid_token_type_error :
    from_str "xyz" = Except.error PyErr.typeErrorEmptyReduce ∧
    PyErr.typeErrorEmptyReduce ≠ PyErr.valueErrorInvalidOption ∧
    from_str "java" = Except.ok JAVA ∧
    from_str "cs" = Except.ok CSHARP ∧
    from_str "cpp" = Except.ok CPP ∧
    from_str "mypy" = Except.ok PYTHON_MYPY ∧
    from_str "better" = Except.ok PYTHON_BETTER_PROTO ∧
    from_str "plus" = Except.ok PYTHON_PROTOPLUS ∧
    from_str "py" = Except.ok PYTHON_BASIC ∧
    from_str "all" = Except.ok ALL ∧
    from_str "js" = Except.ok JAVASCRIPT := by decide

/-- C10: in `_fix_package`, a leading declared-package component is dropped
via Python's substring test `p in root_package`: `rot` is not a
dot-component of `my.proto` but occurs inside `proto`, so
`remap(my.proto, rot.x) = my.proto.x`. -/
theorem c10_substring_component_drop :
    isSubstr (cs "rot") (cs "my.proto") = true ∧
    (cs "rot" : Chars) ∉ splitOnDot (cs "my.proto") ∧
    remapS (cs "my.proto") (cs "rot.x") = some (cs "my.proto.x") := by decide

end MsgCompiler
